import Mathlib

/-!
Shallow embedding of the lifecycle supervisor in src/src/main.rs:
the rootless spec builder (get_rootless), the signal-forwarding and
child-reaping loop (handle_foreground) and the pipeline sequencing
(run_container).  External collaborators (libcontainer, nix, the oci
registry client) are modelled as parameters: the default namespace and
mount lists, the effective uid/gid, and the success/failure of the
build, start and delete calls are inputs of the embedded functions.
-/

namespace OciTest

/-! ### Data model of the runtime specification (oci_spec values used by main.rs) -/

inductive LinuxNamespaceType where
  | Mount
  | Cgroup
  | Uts
  | Ipc
  | User
  | Pid
  | Network
  | Time
deriving DecidableEq, Repr

structure LinuxNamespace where
  typ : LinuxNamespaceType
  path : Option String
deriving DecidableEq, Repr

structure LinuxIdMapping where
  host_id : Nat
  container_id : Nat
  size : Nat
deriving DecidableEq, Repr

structure Mount where
  destination : String
  typ : Option String
  source : Option String
  options : Option (List String)
deriving DecidableEq, Repr

structure Linux where
  namespaces : List LinuxNamespace
  uid_mappings : List LinuxIdMapping
  gid_mappings : List LinuxIdMapping
deriving DecidableEq, Repr

structure Spec where
  linux : Option Linux
  mounts : Option (List Mount)
deriving DecidableEq, Repr

def uidMark : String := "uid="

def gidMark : String := "gid="

/-- Rust str::starts_with, on the character sequences of the strings. -/
def strStartsWith (s p : String) : Bool := p.data.isPrefixOf s.data

/-- Per-mount transformation performed by the for-loop in get_rootless
(main.rs lines 80-103): the mount with destination /sys is overwritten to a
read-only recursive bind of the host /sys; every other mount has its option
list rebuilt without options beginning with uid= or gid=. -/
def transformMount (m : Mount) : Mount :=
  if m.destination = "/sys" then
    { m with
      source := some "/sys"
      typ := some "none"
      options := some [ "rbind", "nosuid", "noexec", "nodev", "ro" ] }
  else
    { m with
      options := some ((m.options.getD []).filter
        (fun o => !(strStartsWith o gidMark) && !(strStartsWith o uidMark))) }

/-- Embedding of get_rootless (main.rs lines 43-108).  The values supplied
by external collaborators are parameters: defaultNamespaces stands for
get_default_namespaces(), defaultMounts for get_default_mounts(), and
euid/egid for geteuid()/getegid(). -/
def get_rootless (defaultNamespaces : List LinuxNamespace)
    (defaultMounts : List Mount) (euid egid : Nat) : Spec :=
  let namespaces :=
    (defaultNamespaces.filter fun ns =>
        ns.typ != LinuxNamespaceType.Network && ns.typ != LinuxNamespaceType.User)
      ++ [ { typ := LinuxNamespaceType.User, path := none } ]
  let linux : Linux :=
    { namespaces := namespaces
      uid_mappings := [ { host_id := euid, container_id := 0, size := 1 } ]
      gid_mappings := [ { host_id := egid, container_id := 0, size := 1 } ] }
  let mounts := defaultMounts.map transformMount
  { linux := some linux, mounts := some mounts }

example : strStartsWith "uid=1000" uidMark = true := by decide

example :
    transformMount
      { destination := "/data", typ := none, source := none,
        options := some [ "uid=1000", "rw" ] }
    = { destination := "/data", typ := none, source := none,
        options := some [ "rw" ] } := by decide

/-! ### Signal-forwarding and child-reaping loop (handle_foreground, main.rs 185-247)

The loop is driven by the environment: each iteration sigwait delivers one
signal.  An Event records one such delivery: whether the sigwait call itself
succeeded, the signal value, the sequence of waitpid(WNOHANG) answers the
kernel would give during the SIGCHLD drain (consulted only for SIGCHLD), and
whether the kill() used to forward the signal succeeds (consulted only for
forwarded signals; the source discards this result).  Running the loop on a
finite list of events yields the outcome together with ghost traces: the
pids reaped, the forwarding attempts made, and the abstract steps taken. -/

def SIGCHLD : Nat := 17

def SIGURG : Nat := 23

def SIGWINCH : Nat := 28

inductive WaitResult where
  | exited (pid : Int) (status : Int)
  | signaled (pid : Int) (sg : Int)
  | stillAlive
  | otherStatus
  | waitError
deriving DecidableEq, Repr

inductive SupOutcome where
  | ok (status : Int)
  | fgError
  | outOfEvents
deriving DecidableEq, Repr

structure Event where
  waitOk : Bool
  sig : Nat
  reaps : List WaitResult
  killOk : Bool
deriving DecidableEq, Repr

inductive Step where
  | build
  | start
  | installMask
  | waitSignal
  | delete
deriving DecidableEq, Repr

structure SupResult where
  outcome : SupOutcome
  reaped : List Int
  forwarded : List (Int × Nat)
  steps : List Step
deriving DecidableEq, Repr

/-- Inner drain loop of handle_foreground (main.rs 203-225): repeatedly call
waitpid(None, WNOHANG); return the exit code or signal number when the reaped
pid is init_pid, break on StillAlive, ignore other statuses, propagate a
waitpid error.  Returns the decision (none = broke out, resume outer wait)
together with the pids reaped.  An exhausted answer list is the end of the
modelled trace (outOfEvents). -/
def drain (init_pid : Int) : List WaitResult → Option SupOutcome × List Int
  | [] => (some SupOutcome.outOfEvents, [])
  | WaitResult.exited pid status :: rest =>
    if pid = init_pid then (some (SupOutcome.ok status), [ pid ])
    else
      let r := drain init_pid rest
      (r.1, pid :: r.2)
  | WaitResult.signaled pid sg :: rest =>
    if pid = init_pid then (some (SupOutcome.ok sg), [ pid ])
    else
      let r := drain init_pid rest
      (r.1, pid :: r.2)
  | WaitResult.stillAlive :: _ => (none, [])
  | WaitResult.otherStatus :: rest => drain init_pid rest
  | WaitResult.waitError :: _ => (some SupOutcome.fgError, [])

/-- Outer loop of handle_foreground (main.rs 193-246): sigwait for the next
signal; on SIGCHLD run the drain; ignore SIGURG and SIGWINCH; forward any
other signal to init_pid with kill, discarding the kill result. -/
def superviseLoop (init_pid : Int) : List Event → SupResult
  | [] => ⟨SupOutcome.outOfEvents, [], [], []⟩
  | e :: rest =>
    if e.waitOk = false then ⟨SupOutcome.fgError, [], [], [ Step.waitSignal ]⟩
    else if e.sig = SIGCHLD then
      let d := drain init_pid e.reaps
      match d.1 with
      | some out => ⟨out, d.2, [], [ Step.waitSignal ]⟩
      | none =>
        let s := superviseLoop init_pid rest
        ⟨s.outcome, d.2 ++ s.reaped, s.forwarded, Step.waitSignal :: s.steps⟩
    else if e.sig = SIGURG then
      let s := superviseLoop init_pid rest
      ⟨s.outcome, s.reaped, s.forwarded, Step.waitSignal :: s.steps⟩
    else if e.sig = SIGWINCH then
      let s := superviseLoop init_pid rest
      ⟨s.outcome, s.reaped, s.forwarded, Step.waitSignal :: s.steps⟩
    else
      let s := superviseLoop init_pid rest
      ⟨s.outcome, s.reaped, (init_pid, e.sig) :: s.forwarded, Step.waitSignal :: s.steps⟩

/-- handle_foreground (main.rs 185-247): block all signals on the thread
(maskOk is whether pthread_sigmask succeeds; on failure the error is
returned before the loop runs), then run the loop. -/
def handle_foreground (maskOk : Bool) (init_pid : Int) (events : List Event) :
    SupResult :=
  if maskOk then
    let s := superviseLoop init_pid events
    { s with steps := Step.installMask :: s.steps }
  else ⟨SupOutcome.fgError, [], [], [ Step.installMask ]⟩

/-! ### Pipeline sequencing (run_container, main.rs 154-182) -/

inductive RunError where
  | buildFailed
  | startFailed
  | deleteFailed
deriving DecidableEq, Repr

/-- Environment of one run_container call: whether the ContainerBuilder
chain succeeds, whether container.start() succeeds, the init pid reported
by container.pid(), the behaviour of the signal machinery inside
handle_foreground, and whether container.delete(true) succeeds. -/
structure RunEnv where
  buildOk : Bool
  startOk : Bool
  init_pid : Int
  maskOk : Bool
  events : List Event
  deleteOk : Bool
deriving DecidableEq, Repr

/-- run_container (main.rs 154-182): build the container (the question-mark
operator propagates a failure), start it (likewise), call handle_foreground
binding its result to an unused variable, delete the container (the
question-mark operator propagates a delete failure), return Ok(()).  The
second component is the ghost trace of attempted steps. -/
def run_container (env : RunEnv) : Except RunError Unit × List Step :=
  if env.buildOk = false then (Except.error RunError.buildFailed, [ Step.build ])
  else if env.startOk = false then
    (Except.error RunError.startFailed, [ Step.build, Step.start ])
  else
    let fg := handle_foreground env.maskOk env.init_pid env.events
    let tr := Step.build :: Step.start :: (fg.steps ++ [ Step.delete ])
    if env.deleteOk = false then (Except.error RunError.deleteFailed, tr)
    else (Except.ok (), tr)

/-- occursBefore a b l: some occurrence of a in l is followed, strictly
later, by an occurrence of b. -/
def occursBefore (a b : Step) : List Step → Bool
  | [] => false
  | x :: rest => (decide (x = a) && decide (b ∈ rest)) || occursBefore a b rest

example :
    (superviseLoop 100
      [ ⟨true, SIGCHLD, [ WaitResult.exited 200 3, WaitResult.exited 100 0 ], true⟩ ]).outcome
    = SupOutcome.ok 0 := by decide

example :
    run_container
      { buildOk := true, startOk := true, init_pid := 100, maskOk := true,
        events := [ ⟨true, SIGCHLD, [ WaitResult.exited 100 0 ], true⟩ ],
        deleteOk := true }
    = (Except.ok (),
       [ Step.build, Step.start, Step.installMask, Step.waitSignal, Step.delete ]) := rfl

/-! ### Sample default mounts used to instantiate the spec-builder theorems -/

def sysDefMount : Mount :=
  { destination := "/sys", typ := some "sysfs", source := some "sysfs",
    options := some [ "nosuid", "noexec", "nodev", "ro" ] }

def dataDefMount : Mount :=
  { destination := "/data", typ := none, source := none,
    options := some [ "uid=1000", "rw" ] }

def bareDefMount : Mount :=
  { destination := "/run", typ := none, source := none, options := none }

lemma get_rootless_mounts (dns : List LinuxNamespace) (dms : List Mount)
    (euid egid : Nat) :
    (get_rootless dns dms euid egid).mounts = some (dms.map transformMount) := rfl

/-- C5: the spec returned by get_rootless has zero Network namespace
entries, exactly one User namespace entry, exactly one UID mapping with
host_id = effective uid, container_id 0, size 1, and one analogous GID
mapping — for every default namespace list and every effective uid/gid. -/
theorem c5_rootless_namespaces_and_mappings :
    ∀ (dns : List LinuxNamespace) (dms : List Mount) (euid egid : Nat),
      ∃ l, (get_rootless dns dms euid egid).linux = some l
        ∧ (l.namespaces.countP fun ns => decide (ns.typ = LinuxNamespaceType.Network)) = 0
        ∧ (l.namespaces.countP fun ns => decide (ns.typ = LinuxNamespaceType.User)) = 1
        ∧ l.uid_mappings = [ { host_id := euid, container_id := 0, size := 1 } ]
        ∧ l.gid_mappings = [ { host_id := egid, container_id := 0, size := 1 } ] := by
  intro dns dms euid egid
  refine ⟨_, rfl, ?_, ?_, rfl, rfl⟩
  · simp only [List.countP_append]
    have h0 : (dns.filter fun ns =>
        ns.typ != LinuxNamespaceType.Network && ns.typ != LinuxNamespaceType.User).countP
          (fun ns => decide (ns.typ = LinuxNamespaceType.Network)) = 0 := by
      rw [List.countP_eq_zero]
      intro a ha
      have h2 := List.of_mem_filter ha
      simp only [bne_iff_ne, Bool.and_eq_true, ne_eq] at h2
      simp [h2.1]
    rw [h0]
    decide
  · simp only [List.countP_append]
    have h0 : (dns.filter fun ns =>
        ns.typ != LinuxNamespaceType.Network && ns.typ != LinuxNamespaceType.User).countP
          (fun ns => decide (ns.typ = LinuxNamespaceType.User)) = 0 := by
      rw [List.countP_eq_zero]
      intro a ha
      have h2 := List.of_mem_filter ha
      simp only [bne_iff_ne, Bool.and_eq_true, ne_eq] at h2
      simp [h2.2]
    rw [h0]
    decide

/-- C6: in the mount list produced by get_rootless, any mount whose
destination is /sys has source /sys, type none, and an option list
containing rbind, ro, nosuid, noexec and nodev and not containing rw. -/
theorem c6_sys_mount_hardened :
    ∀ (dns : List LinuxNamespace) (dms : List Mount) (euid egid : Nat)
      (ms : List Mount) (m : Mount),
      (get_rootless dns dms euid egid).mounts = some ms →
      m ∈ ms → m.destination = "/sys" →
      m.source = some "/sys" ∧ m.typ = some "none" ∧
      ∃ opts, m.options = some opts ∧
        "ro" ∈ opts ∧ "nosuid" ∈ opts ∧ "noexec" ∈ opts ∧ "nodev" ∈ opts ∧
        "rbind" ∈ opts ∧ "rw" ∉ opts := by
  intro dns dms euid egid ms m hms hmem hdest
  rw [get_rootless_mounts] at hms
  have hms2 : dms.map transformMount = ms := Option.some.inj hms
  rw [← hms2] at hmem
  rcases List.mem_map.mp hmem with ⟨a, _, rfl⟩
  by_cases hd : a.destination = "/sys"
  · refine ⟨?_, ?_, [ "rbind", "nosuid", "noexec", "nodev", "ro" ], ?_, ?_, ?_, ?_, ?_, ?_, ?_⟩
      <;> simp [transformMount, hd]
  · exfalso
    simp [transformMount, hd] at hdest

/-- C7: for every default mount other than the /sys mount, get_rootless
rebuilds the option list retaining exactly the options that do not begin
with uid= or gid=; in particular a default option list [uid=1000, rw]
becomes [rw]. -/
theorem c7_uid_gid_option_filtering :
    (∀ (dns : List LinuxNamespace) (dms : List Mount) (euid egid : Nat)
       (ms : List Mount) (m : Mount),
       (get_rootless dns dms euid egid).mounts = some ms →
       m ∈ dms → m.destination ≠ "/sys" →
       ∃ m2 ∈ ms, m2.destination = m.destination ∧
         ∃ opts, m2.options = some opts ∧
           ∀ o : String, o ∈ opts ↔
             (o ∈ m.options.getD [] ∧ strStartsWith o uidMark = false
               ∧ strStartsWith o gidMark = false))
    ∧ (get_rootless [] [ dataDefMount ] 1000 1000).mounts
        = some [ { destination := "/data", typ := none, source := none,
                   options := some [ "rw" ] } ] := by
  constructor
  · intro dns dms euid egid ms m hms hmem hdest
    rw [get_rootless_mounts] at hms
    have hms2 : dms.map transformMount = ms := Option.some.inj hms
    refine ⟨transformMount m, by rw [← hms2]; exact List.mem_map_of_mem _ hmem, ?_,
      (m.options.getD []).filter
        (fun o => !(strStartsWith o gidMark) && !(strStartsWith o uidMark)), ?_, ?_⟩
    · simp [transformMount, hdest]
    · simp [transformMount, hdest]
    · intro o
      simp only [List.mem_filter, Bool.and_eq_true, Bool.not_eq_true']
      tauto
  · rfl

/-- C10: every mount in the spec returned by get_rootless has a present
options list; a default mount with an absent option list ends up with an
empty option list. -/
theorem c10_options_always_present :
    (∀ (dns : List LinuxNamespace) (dms : List Mount) (euid egid : Nat)
       (ms : List Mount) (m : Mount),
       (get_rootless dns dms euid egid).mounts = some ms →
       m ∈ ms → (m.options).isSome = true)
    ∧ (get_rootless [] [ bareDefMount ] 0 0).mounts
        = some [ { destination := "/run", typ := none, source := none,
                   options := some [] } ] := by
  constructor
  · intro dns dms euid egid ms m hms hmem
    rw [get_rootless_mounts] at hms
    have hms2 : dms.map transformMount = ms := Option.some.inj hms
    rw [← hms2] at hmem
    rcases List.mem_map.mp hmem with ⟨a, _, rfl⟩
    by_cases hd : a.destination = "/sys" <;> simp [transformMount, hd]
  · rfl

theorem c6_witness :
    (transformMount sysDefMount).source = some "/sys"
    ∧ (transformMount sysDefMount).typ = some "none"
    ∧ ∃ opts, (transformMount sysDefMount).options = some opts ∧
        "ro" ∈ opts ∧ "nosuid" ∈ opts ∧ "noexec" ∈ opts ∧ "nodev" ∈ opts ∧
        "rbind" ∈ opts ∧ "rw" ∉ opts :=
  c6_sys_mount_hardened [] [ sysDefMount ] 0 0 [ transformMount sysDefMount ]
    (transformMount sysDefMount) rfl (by decide) (by decide)

theorem c7_witness :
    ∃ m2 ∈ [ transformMount dataDefMount ], m2.destination = dataDefMount.destination ∧
      ∃ opts, m2.options = some opts ∧
        ∀ o : String, o ∈ opts ↔
          (o ∈ dataDefMount.options.getD [] ∧ strStartsWith o uidMark = false
            ∧ strStartsWith o gidMark = false) :=
  c7_uid_gid_option_filtering.1 [] [ dataDefMount ] 1000 1000
    [ transformMount dataDefMount ] dataDefMount rfl (by decide) (by decide)

theorem c10_witness :
    ((transformMount bareDefMount).options).isSome = true :=
  c10_options_always_present.1 [] [ bareDefMount ] 0 0 [ transformMount bareDefMount ]
    (transformMount bareDefMount) rfl (by decide)

/-! ### Properties of the reaper loop -/

lemma drain_ok_mem (init_pid v : Int) (rs : List WaitResult) :
    (drain init_pid rs).1 = some (SupOutcome.ok v) →
    ∃ r ∈ rs, r = WaitResult.exited init_pid v ∨ r = WaitResult.signaled init_pid v := by
  induction rs with
  | nil => intro h; simp [drain] at h
  | cons r rest ih =>
    cases r with
    | exited pid status =>
      intro h
      by_cases hp : pid = init_pid
      · subst hp
        simp [drain] at h
        subst h
        exact ⟨WaitResult.exited pid status, by simp, Or.inl rfl⟩
      · simp [drain, hp] at h
        rcases ih h with ⟨r2, hr2, ho⟩
        exact ⟨r2, List.mem_cons_of_mem _ hr2, ho⟩
    | signaled pid sg =>
      intro h
      by_cases hp : pid = init_pid
      · subst hp
        simp [drain] at h
        subst h
        exact ⟨WaitResult.signaled pid sg, by simp, Or.inr rfl⟩
      · simp [drain, hp] at h
        rcases ih h with ⟨r2, hr2, ho⟩
        exact ⟨r2, List.mem_cons_of_mem _ hr2, ho⟩
    | stillAlive => intro h; simp [drain] at h
    | otherStatus =>
      intro h
      simp only [drain] at h
      rcases ih h with ⟨r2, hr2, ho⟩
      exact ⟨r2, List.mem_cons_of_mem _ hr2, ho⟩
    | waitError => intro h; simp [drain] at h

lemma superviseLoop_ok_mem (init_pid v : Int) (events : List Event) :
    (superviseLoop init_pid events).outcome = SupOutcome.ok v →
    ∃ e ∈ events, e.sig = SIGCHLD ∧
      ∃ r ∈ e.reaps, r = WaitResult.exited init_pid v ∨ r = WaitResult.signaled init_pid v := by
  induction events with
  | nil => intro h; simp [superviseLoop] at h
  | cons e rest ih =>
    intro h
    by_cases hw : e.waitOk = false
    · simp [superviseLoop, hw] at h
    · by_cases hs : e.sig = SIGCHLD
      · rcases ho : (drain init_pid e.reaps).1 with _ | out
        · simp [superviseLoop, hw, hs, ho] at h
          rcases ih h with ⟨e2, he2, hx⟩
          exact ⟨e2, List.mem_cons_of_mem _ he2, hx⟩
        · simp [superviseLoop, hw, hs, ho] at h
          exact ⟨e, List.mem_cons_self _ _, hs,
            drain_ok_mem init_pid v e.reaps (ho.trans (by rw [h]))⟩
      · by_cases hu : e.sig = SIGURG
        · simp [superviseLoop, hw, hs, hu] at h
          rcases ih h with ⟨e2, he2, hx⟩
          exact ⟨e2, List.mem_cons_of_mem _ he2, hx⟩
        · by_cases hwi : e.sig = SIGWINCH
          · simp [superviseLoop, hw, hs, hu, hwi] at h
            rcases ih h with ⟨e2, he2, hx⟩
            exact ⟨e2, List.mem_cons_of_mem _ he2, hx⟩
          · simp [superviseLoop, hw, hs, hu, hwi] at h
            rcases ih h with ⟨e2, he2, hx⟩
            exact ⟨e2, List.mem_cons_of_mem _ he2, hx⟩

/-- C1: handle_foreground (with the signal mask installed) returns Ok v only
when some SIGCHLD drain reaped an exit or signal-termination event for
init_pid itself, v being the exit code or the signal number; reaped events
for other pids never terminate the loop.  Concretely, when the unrelated
child 200 exits before init 100 exits with code 0, the call returns Ok 0
and has reaped pid 200. -/
theorem c1_supervise_returns_only_on_init_exit :
    (∀ (init_pid v : Int) (events : List Event),
        (handle_foreground true init_pid events).outcome = SupOutcome.ok v →
        ∃ e ∈ events, e.sig = SIGCHLD ∧
          ∃ r ∈ e.reaps,
            r = WaitResult.exited init_pid v ∨ r = WaitResult.signaled init_pid v)
    ∧ (handle_foreground true 100
        [ ⟨true, SIGCHLD, [ WaitResult.exited 200 3, WaitResult.exited 100 0 ], true⟩ ]).outcome
        = SupOutcome.ok 0
    ∧ (200 : Int) ∈ (handle_foreground true 100
        [ ⟨true, SIGCHLD, [ WaitResult.exited 200 3, WaitResult.exited 100 0 ], true⟩ ]).reaped := by
  refine ⟨?_, by decide, by decide⟩
  intro init_pid v events h
  have h2 : (superviseLoop init_pid events).outcome = SupOutcome.ok v := by
    simpa [handle_foreground] using h
  exact superviseLoop_ok_mem init_pid v events h2

theorem c1_witness :
    ∃ e ∈ ([ ⟨true, SIGCHLD, [ WaitResult.exited 200 3, WaitResult.exited 100 0 ], true⟩ ] :
        List Event),
      e.sig = SIGCHLD ∧ ∃ r ∈ e.reaps,
        r = WaitResult.exited 100 0 ∨ r = WaitResult.signaled 100 0 :=
  c1_supervise_returns_only_on_init_exit.1 100 0
    [ ⟨true, SIGCHLD, [ WaitResult.exited 200 3, WaitResult.exited 100 0 ], true⟩ ]
    (by decide)

/-- C8: SIGURG and SIGWINCH are neither forwarded nor terminate the loop;
any other non-SIGCHLD signal is forwarded to init_pid as the identical
signal, the loop continuing; and a kill failure is invisible to the loop:
the result does not depend on whether the forwarding kill calls succeed. -/
theorem c8_forwarding_behaviour :
    (∀ (init_pid : Int) (e : Event) (rest : List Event),
        e.waitOk = true → (e.sig = SIGURG ∨ e.sig = SIGWINCH) →
        (superviseLoop init_pid (e :: rest)).outcome = (superviseLoop init_pid rest).outcome
        ∧ (superviseLoop init_pid (e :: rest)).forwarded
            = (superviseLoop init_pid rest).forwarded
        ∧ (superviseLoop init_pid (e :: rest)).reaped = (superviseLoop init_pid rest).reaped)
    ∧ (∀ (init_pid : Int) (e : Event) (rest : List Event),
        e.waitOk = true → e.sig ≠ SIGCHLD → e.sig ≠ SIGURG → e.sig ≠ SIGWINCH →
        (superviseLoop init_pid (e :: rest)).forwarded
            = (init_pid, e.sig) :: (superviseLoop init_pid rest).forwarded
        ∧ (superviseLoop init_pid (e :: rest)).outcome = (superviseLoop init_pid rest).outcome
        ∧ (superviseLoop init_pid (e :: rest)).reaped = (superviseLoop init_pid rest).reaped)
    ∧ (∀ (init_pid : Int) (es es2 : List Event),
        List.Forall₂
          (fun a b : Event => a.waitOk = b.waitOk ∧ a.sig = b.sig ∧ a.reaps = b.reaps)
          es es2 →
        superviseLoop init_pid es = superviseLoop init_pid es2) := by
  refine ⟨?_, ?_, ?_⟩
  · intro init_pid e rest hw hs
    rcases hs with hs | hs
    · refine ⟨?_, ?_, ?_⟩ <;> simp [superviseLoop, SIGCHLD, SIGURG, hw, hs]
    · refine ⟨?_, ?_, ?_⟩ <;> simp [superviseLoop, SIGCHLD, SIGURG, SIGWINCH, hw, hs]
  · intro init_pid e rest hw h1 h2 h3
    refine ⟨?_, ?_, ?_⟩ <;> simp [superviseLoop, hw, h1, h2, h3]
  · intro init_pid es es2 hrel
    induction hrel with
    | nil => rfl
    | cons hab hr ih =>
      rcases hab with ⟨hw, hs, hre⟩
      simp only [superviseLoop]
      rw [hw, hs, hre, ih]

theorem c8_witness :
    ((superviseLoop 100 [ ⟨true, SIGURG, [], true⟩ ]).outcome
        = (superviseLoop 100 ([] : List Event)).outcome
      ∧ (superviseLoop 100 [ ⟨true, SIGURG, [], true⟩ ]).forwarded
          = (superviseLoop 100 ([] : List Event)).forwarded
      ∧ (superviseLoop 100 [ ⟨true, SIGURG, [], true⟩ ]).reaped
          = (superviseLoop 100 ([] : List Event)).reaped)
    ∧ ((superviseLoop 100 [ ⟨true, 15, [], false⟩ ]).forwarded
        = (100, 15) :: (superviseLoop 100 ([] : List Event)).forwarded
      ∧ (superviseLoop 100 [ ⟨true, 15, [], false⟩ ]).outcome
          = (superviseLoop 100 ([] : List Event)).outcome
      ∧ (superviseLoop 100 [ ⟨true, 15, [], false⟩ ]).reaped
          = (superviseLoop 100 ([] : List Event)).reaped)
    ∧ superviseLoop 100 [ ⟨true, 15, [], true⟩ ] = superviseLoop 100 [ ⟨true, 15, [], false⟩ ] := by
  refine ⟨?_, ?_, ?_⟩
  · exact c8_forwarding_behaviour.1 100 ⟨true, SIGURG, [], true⟩ [] (by decide) (Or.inl rfl)
  · exact c8_forwarding_behaviour.2.1 100 ⟨true, 15, [], false⟩ []
      (by decide) (by decide) (by decide) (by decide)
  · exact c8_forwarding_behaviour.2.2 100 [ ⟨true, 15, [], true⟩ ] [ ⟨true, 15, [], false⟩ ]
      (List.Forall₂.cons ⟨rfl, rfl, rfl⟩ List.Forall₂.nil)

/-! ### Properties of run_container -/

def okEnv : RunEnv :=
  { buildOk := true, startOk := true, init_pid := 100, maskOk := true,
    events := [ ⟨true, SIGCHLD, [ WaitResult.exited 100 0 ], true⟩ ], deleteOk := true }

def startFailEnv : RunEnv :=
  { buildOk := true, startOk := false, init_pid := 0, maskOk := true,
    events := [], deleteOk := true }

def deleteFailEnv : RunEnv :=
  { buildOk := true, startOk := true, init_pid := 100, maskOk := true,
    events := [ ⟨true, SIGCHLD, [ WaitResult.exited 100 0 ], true⟩ ], deleteOk := false }

def exit7Env : RunEnv :=
  { buildOk := true, startOk := true, init_pid := 100, maskOk := true,
    events := [ ⟨true, SIGCHLD, [ WaitResult.exited 100 7 ], true⟩ ], deleteOk := true }

lemma superviseLoop_steps_waitSignal (init_pid : Int) (events : List Event) :
    ∀ s ∈ (superviseLoop init_pid events).steps, s = Step.waitSignal := by
  induction events with
  | nil => intro s hsm; simp [superviseLoop] at hsm
  | cons e rest ih =>
    intro s hsm
    by_cases hw : e.waitOk = false
    · simp [superviseLoop, hw] at hsm; exact hsm
    · by_cases hs : e.sig = SIGCHLD
      · rcases ho : (drain init_pid e.reaps).1 with _ | out
        · simp [superviseLoop, hw, hs, ho, List.mem_cons] at hsm
          rcases hsm with hsm | hsm
          · exact hsm
          · exact ih s hsm
        · simp [superviseLoop, hw, hs, ho] at hsm; exact hsm
      · by_cases hu : e.sig = SIGURG
        · simp [superviseLoop, SIGCHLD, SIGURG, hw, hs, hu, List.mem_cons] at hsm
          rcases hsm with hsm | hsm
          · exact hsm
          · exact ih s hsm
        · by_cases hwi : e.sig = SIGWINCH
          · simp [superviseLoop, SIGCHLD, SIGURG, SIGWINCH, hw, hs, hu, hwi,
              List.mem_cons] at hsm
            rcases hsm with hsm | hsm
            · exact hsm
            · exact ih s hsm
          · simp [superviseLoop, hw, hs, hu, hwi, List.mem_cons] at hsm
            rcases hsm with hsm | hsm
            · exact hsm
            · exact ih s hsm

lemma handle_foreground_steps (maskOk : Bool) (init_pid : Int) (events : List Event) :
    ∃ ss, (handle_foreground maskOk init_pid events).steps = Step.installMask :: ss
      ∧ ∀ s ∈ ss, s = Step.waitSignal := by
  cases maskOk with
  | false => exact ⟨[], rfl, by simp⟩
  | true =>
    exact ⟨(superviseLoop init_pid events).steps, rfl,
      superviseLoop_steps_waitSignal init_pid events⟩

lemma occursBefore_false_of_fst_not_mem (a b : Step) :
    ∀ l : List Step, a ∉ l → occursBefore a b l = false := by
  intro l
  induction l with
  | nil => intro _; rfl
  | cons x rest ih =>
    intro h
    have hxa : x ≠ a := by rintro rfl; exact h (List.mem_cons_self x rest)
    have ha2 : a ∉ rest := fun hm => h (List.mem_cons_of_mem _ hm)
    simp [occursBefore, hxa, ih ha2]

lemma occursBefore_false_of_snd_not_mem (a b : Step) :
    ∀ l : List Step, b ∉ l → occursBefore a b l = false := by
  intro l
  induction l with
  | nil => intro _; rfl
  | cons x rest ih =>
    intro h
    have hb2 : b ∉ rest := fun hm => h (List.mem_cons_of_mem _ hm)
    simp [occursBefore, hb2, ih hb2]

/-- C2 counterexample: with the build succeeding and container.start()
failing, run_container propagates the start error and its trace never
reaches the delete step — cleanup is not attempted. -/
theorem c2_counterexample :
    (run_container startFailEnv).1 = Except.error RunError.startFailed
    ∧ Step.delete ∉ (run_container startFailEnv).2 := by
  exact ⟨rfl, by decide⟩

/-- C2 amended: if container.start() fails, run_container returns the start
error without attempting container deletion; deletion is attempted only
when the start succeeds. -/
theorem c2_no_delete_on_start_failure :
    (∀ env : RunEnv, env.buildOk = true → env.startOk = false →
       (run_container env).1 = Except.error RunError.startFailed
       ∧ Step.delete ∉ (run_container env).2)
    ∧ (∀ env : RunEnv, env.buildOk = true → env.startOk = true →
       Step.delete ∈ (run_container env).2) := by
  constructor
  · intro env hb hs
    refine ⟨by simp [run_container, hb, hs], ?_⟩
    simp [run_container, hb, hs]
  · intro env hb hs
    cases hd : env.deleteOk <;> simp [run_container, hb, hs, hd]

theorem c2_witness :
    ((run_container startFailEnv).1 = Except.error RunError.startFailed
      ∧ Step.delete ∉ (run_container startFailEnv).2)
    ∧ Step.delete ∈ (run_container okEnv).2 :=
  ⟨c2_no_delete_on_start_failure.1 startFailEnv rfl rfl,
   c2_no_delete_on_start_failure.2 okEnv rfl rfl⟩

/-- C3 counterexample: the init process exits with status 0, the delete
fails, and run_container returns the delete error — the delete failure is
escalated, not merely logged. -/
theorem c3_counterexample :
    (handle_foreground deleteFailEnv.maskOk deleteFailEnv.init_pid deleteFailEnv.events).outcome
      = SupOutcome.ok 0
    ∧ (run_container deleteFailEnv).1 = Except.error RunError.deleteFailed :=
  ⟨by decide, rfl⟩

/-- C3 amended: a failure of container deletion after a successful start is
escalated — run_container returns the deletion error; the init process's
exit status never influences run_container's result, because the
handle_foreground result is discarded. -/
theorem c3_delete_failure_escalated :
    (∀ env : RunEnv, env.buildOk = true → env.startOk = true → env.deleteOk = false →
       (run_container env).1 = Except.error RunError.deleteFailed)
    ∧ (∀ (env : RunEnv) (pid2 : Int) (mo2 : Bool) (ev2 : List Event),
       (run_container { env with init_pid := pid2, maskOk := mo2, events := ev2 }).1
         = (run_container env).1) := by
  constructor
  · intro env hb hs hd
    simp [run_container, hb, hs, hd]
  · intro env pid2 mo2 ev2
    cases hb : env.buildOk
    · simp [run_container, hb]
    · cases hs : env.startOk
      · simp [run_container, hb, hs]
      · cases hd : env.deleteOk <;> simp [run_container, hb, hs, hd]

theorem c3_witness :
    (run_container deleteFailEnv).1 = Except.error RunError.deleteFailed
    ∧ (run_container { okEnv with init_pid := 5, maskOk := false, events := [] }).1
        = (run_container okEnv).1 :=
  ⟨c3_delete_failure_escalated.1 deleteFailEnv rfl rfl rfl,
   c3_delete_failure_escalated.2 okEnv 5 false []⟩

/-- C4 counterexample: two runs whose init processes exit with different
statuses (7 and 0) produce identical run_container results, and the
successful run returns Ok(()) — run_container does not return the captured
exit status. -/
theorem c4_counterexample :
    (handle_foreground exit7Env.maskOk exit7Env.init_pid exit7Env.events).outcome
      = SupOutcome.ok 7
    ∧ (handle_foreground okEnv.maskOk okEnv.init_pid okEnv.events).outcome = SupOutcome.ok 0
    ∧ run_container exit7Env = run_container okEnv
    ∧ (run_container exit7Env).1 = Except.ok () :=
  ⟨by decide, by decide, rfl, rfl⟩

/-- C4 amended: run_container returns Ok(()) on the success path whatever
the supervised exit status was; the status captured by handle_foreground is
discarded and never part of run_container's result. -/
theorem c4_returns_unit_discarding_status :
    (∀ env : RunEnv, env.buildOk = true → env.startOk = true → env.deleteOk = true →
       (run_container env).1 = Except.ok ())
    ∧ (∀ (env : RunEnv) (ev2 : List Event),
       (run_container { env with events := ev2 }).1 = (run_container env).1) := by
  constructor
  · intro env hb hs hd
    simp [run_container, hb, hs, hd]
  · intro env ev2
    cases hb : env.buildOk
    · simp [run_container, hb]
    · cases hs : env.startOk
      · simp [run_container, hb, hs]
      · cases hd : env.deleteOk <;> simp [run_container, hb, hs, hd]

theorem c4_witness :
    (run_container okEnv).1 = Except.ok ()
    ∧ (run_container { okEnv with events := [] }).1 = (run_container okEnv).1 :=
  ⟨c4_returns_unit_discarding_status.1 okEnv rfl rfl rfl,
   c4_returns_unit_discarding_status.2 okEnv []⟩

/-- C9 counterexample: in the step trace of a successful run, the signal
mask installation does not occur before the container start — the start
step precedes it. -/
theorem c9_counterexample :
    occursBefore Step.installMask Step.start (run_container okEnv).2 = false
    ∧ occursBefore Step.start Step.installMask (run_container okEnv).2 = true := by
  decide

/-- C9 amended: the signal mask is installed after the container's init
process is started (handle_foreground runs only after container.start()
returns), and before the first synchronous wait iteration: in every trace
with a successful build and start, start precedes installMask, installMask
never precedes start, and no waitSignal step precedes installMask. -/
theorem c9_mask_after_start_before_wait :
    ∀ env : RunEnv, env.buildOk = true → env.startOk = true →
      occursBefore Step.start Step.installMask (run_container env).2 = true
      ∧ occursBefore Step.installMask Step.start (run_container env).2 = false
      ∧ occursBefore Step.waitSignal Step.installMask (run_container env).2 = false := by
  intro env hb hs
  rcases handle_foreground_steps env.maskOk env.init_pid env.events with ⟨ss, hss, hall⟩
  have htr : (run_container env).2
      = Step.build :: Step.start :: ((Step.installMask :: ss) ++ [ Step.delete ]) := by
    cases hd : env.deleteOk <;> simp [run_container, hb, hs, hd, hss]
  have htail : ∀ s ∈ ss ++ [ Step.delete ], s = Step.waitSignal ∨ s = Step.delete := by
    intro s hm
    rcases List.mem_append.mp hm with hm | hm
    · exact Or.inl (hall s hm)
    · simp at hm
      exact Or.inr hm
  have h1 : Step.start ∉ ss ++ [ Step.delete ] := by
    intro hm
    rcases htail _ hm with h | h <;> exact Step.noConfusion h
  have h2 : Step.installMask ∉ ss ++ [ Step.delete ] := by
    intro hm
    rcases htail _ hm with h | h <;> exact Step.noConfusion h
  rw [htr]
  refine ⟨?_, ?_, ?_⟩
  · simp [occursBefore]
  · simp [occursBefore, h1]
    exact occursBefore_false_of_fst_not_mem _ _ _ h2
  · simp [occursBefore]
    exact occursBefore_false_of_snd_not_mem _ _ _ h2

theorem c9_witness :
    occursBefore Step.start Step.installMask (run_container okEnv).2 = true
    ∧ occursBefore Step.installMask Step.start (run_container okEnv).2 = false
    ∧ occursBefore Step.waitSignal Step.installMask (run_container okEnv).2 = false :=
  c9_mask_after_start_before_wait okEnv rfl rfl

end OciTest
